import Mathlib

/-!
A Lean model of the analytical core of the SensorFlow repository
(industrial sensor telemetry analysis): the event extractor, reliability
calculator, root-cause analyzer, data-quality monitor, financial risk
estimator (src/anomaly_insights.py, src/data_quality.py) and the ETL
preprocessing pipeline (etl_pipeline.py), together with proofs about the
modelled functions.

Modelling conventions, used throughout:

* timestamps are rationals counting seconds (pandas timestamps; the source
  takes differences with total_seconds());
* numeric cell values are rationals; a missing value (NaN cell) in a column
  is modelled as `none` in a `List (Option Rat)`;
* a pandas standard deviation (ddof = 1, NaN values skipped) is represented
  by the sample variance wrapped in `Option`: `none` models the NaN that
  pandas produces when fewer than two values are available.  Since
  std = sqrt(variance) and the square root is strictly monotone on the
  nonnegative rationals with sqrt 0 = 0, every test the source performs on
  a standard deviation (comparison with 0, ordering of score magnitudes)
  is faithfully represented on the variance, which keeps the whole model
  inside the rationals and computable;
* a Python function that can raise an exception is modelled with
  `Option` or `Except`, where `none` / `.error` marks the raise.
-/

namespace SensorFlow

/-! ### Shared statistics helpers -/

/-- Arithmetic mean of a list of rationals (pandas `Series.mean` on fully
present numeric data; every caller in the source guards against the empty
series before taking a mean). -/
def listMean (xs : List ℚ) : ℚ := xs.sum / (xs.length : ℚ)

/-- Sample variance with ddof = 1: the square of pandas `Series.std` over
the present values.  pandas yields NaN when fewer than two values are
available, modelled as `none`.  All uses in the source only ever compare a
standard deviation with 0 or order score magnitudes, and both are invariant
under squaring, so carrying the variance is a faithful rational model of
carrying the standard deviation. -/
def sampleVar (xs : List ℚ) : Option ℚ :=
  if xs.length < 2 then none
  else some ((xs.map (fun x => (x - listMean xs) ^ 2)).sum / ((xs.length : ℚ) - 1))

/-- The failure statuses `['BROKEN', 'RECOVERING']` used throughout
src/anomaly_insights.py. -/
def failureStatuses : List String := ["BROKEN", "RECOVERING"]

/-- The membership test `status in ['BROKEN', 'RECOVERING']` /
`.isin(['BROKEN', 'RECOVERING'])`. -/
def isFailureStatus (s : String) : Bool := failureStatuses.contains s

/-! ### calculate_reliability_metrics and calculate_financial_risk
(src/anomaly_insights.py)

The events frame rows carry the two columns these functions read:
`status` and `duration_mins`. -/

/-- A row of the events frame consumed by the reliability and financial
calculators. -/
structure EventRec where
  status : String
  duration_mins : ℚ
deriving DecidableEq

/-- Return value of `calculate_reliability_metrics`: MTBF in hours, with
`⊤ : WithTop ℚ` modelling the sentinel `float('inf')`; MTTR in minutes. -/
structure Reliability where
  MTBF : WithTop ℚ
  MTTR : ℚ
deriving DecidableEq

/-- `calculate_reliability_metrics(events_df, total_duration_hours)` from
src/anomaly_insights.py, line for line: empty frame sentinel, failure
filter, zero-failure sentinel, downtime/uptime arithmetic, and the
(unreachable) `else 0` guard on the MTBF division. -/
def calculate_reliability_metrics (events_df : List EventRec)
    (total_duration_hours : ℚ) : Reliability :=
  if events_df = [] then ⟨⊤, 0⟩
  else
    let failures := events_df.filter (fun e => isFailureStatus e.status)
    let num_failures := failures.length
    if num_failures = 0 then ⟨⊤, 0⟩
    else
      let total_downtime_hours := (failures.map EventRec.duration_mins).sum / 60
      let total_uptime_hours := total_duration_hours - total_downtime_hours
      let mtbf : ℚ :=
        if 0 < num_failures then total_uptime_hours / (num_failures : ℚ) else 0
      let mttr : ℚ := (total_downtime_hours / (num_failures : ℚ)) * 60
      ⟨(mtbf : WithTop ℚ), mttr⟩

/-- `calculate_financial_risk(events_df, cost_per_minute)` from
src/anomaly_insights.py: sum of `duration_mins` over all supplied events
times the rate, 0 on an empty frame. -/
def calculate_financial_risk (events_df : List EventRec)
    (cost_per_minute : ℚ) : ℚ :=
  if events_df = [] then 0
  else (events_df.map EventRec.duration_mins).sum * cost_per_minute

/-- C2: with at least one failure event and any supplied
`total_duration_hours` T, `calculate_reliability_metrics` returns
MTBF = (T − sum(duration_mins over failures)/60) / num_failures hours and
MTTR = ((sum(duration_mins over failures)/60) / num_failures) × 60 minutes;
one failure of 60 minutes with T = 10 gives MTBF = 9.0 and MTTR = 60.0, and
there is no guard that T exceeds the downtime: the same event with T = 0
yields the negative MTBF −1. -/
theorem c2_reliability_metrics_formulas (events : List EventRec) (T : ℚ)
    (h : 1 ≤ (events.filter (fun e => isFailureStatus e.status)).length) :
    calculate_reliability_metrics events T =
      ⟨(((T - ((events.filter (fun e => isFailureStatus e.status)).map
              EventRec.duration_mins).sum / 60) /
          (((events.filter (fun e => isFailureStatus e.status)).length : ℕ) : ℚ) :
            ℚ) : WithTop ℚ),
        ((((events.filter (fun e => isFailureStatus e.status)).map
              EventRec.duration_mins).sum / 60) /
          (((events.filter (fun e => isFailureStatus e.status)).length : ℕ) : ℚ)) *
          60⟩ ∧
    calculate_reliability_metrics [⟨"BROKEN", 60⟩] 10 =
      ⟨((9 : ℚ) : WithTop ℚ), 60⟩ ∧
    calculate_reliability_metrics [⟨"BROKEN", 60⟩] 0 =
      ⟨(((-1 : ℚ)) : WithTop ℚ), 60⟩ := by
  refine ⟨?_, ?_, ?_⟩
  case refine_2 =>
    unfold calculate_reliability_metrics
    norm_num [isFailureStatus, failureStatuses, List.filter]
  case refine_3 =>
    unfold calculate_reliability_metrics
    norm_num [isFailureStatus, failureStatuses, List.filter]
  have hne : events ≠ [] := by
    intro he
    subst he
    simp at h
  have hn : ¬ (events.filter (fun e => isFailureStatus e.status)).length = 0 := by
    omega
  have hpos : 0 < (events.filter (fun e => isFailureStatus e.status)).length := by
    omega
  unfold calculate_reliability_metrics
  simp only [if_neg hne, if_neg hn, if_pos hpos]

/-- C2 witness: the theorem applied at the concrete one-failure instance
from the spec. -/
theorem c2_witness :
    calculate_reliability_metrics [⟨"BROKEN", 60⟩] 10 =
      ⟨((9 : ℚ) : WithTop ℚ), 60⟩ :=
  (c2_reliability_metrics_formulas [⟨"BROKEN", 60⟩] 10 (by decide)).2.1

/-- C3: whenever the supplied event list contains no event whose status is
in the failure set (in particular on the empty list),
`calculate_reliability_metrics` returns the sentinel MTBF = +infinity,
MTTR = 0.  The modelled function is total, matching the source, which
reaches no raising operation on this path. -/
theorem c3_reliability_metrics_no_failures (events : List EventRec) (T : ℚ)
    (h : (events.filter (fun e => isFailureStatus e.status)).length = 0) :
    calculate_reliability_metrics events T = ⟨⊤, 0⟩ := by
  unfold calculate_reliability_metrics
  by_cases he : events = []
  · simp [he]
  · simp only [if_neg he, if_pos h]

/-- C3 witness: the theorem applied to an event list with a non-failure
status and to no rows at all is reflected at a concrete input. -/
theorem c3_witness :
    calculate_reliability_metrics [⟨"NORMAL", 42⟩] 7 = ⟨⊤, 0⟩ :=
  c3_reliability_metrics_no_failures [⟨"NORMAL", 42⟩] 7 (by decide)

/-- C8: `calculate_financial_risk` returns the sum of `duration_mins` over
all events in the supplied list times the uniform `cost_per_minute` rate
(no status filter appears in the computation), returns 0 on the empty
list, and is linear in durations: doubling every duration doubles the
total risk. -/
theorem c8_financial_risk_linear (events : List EventRec) (c : ℚ) :
    calculate_financial_risk events c =
      (events.map EventRec.duration_mins).sum * c ∧
    calculate_financial_risk [] c = 0 ∧
    calculate_financial_risk
        (events.map (fun e => ⟨e.status, 2 * e.duration_mins⟩)) c =
      2 * calculate_financial_risk events c := by
  have key : ∀ l : List EventRec,
      calculate_financial_risk l c = (l.map EventRec.duration_mins).sum * c := by
    intro l
    unfold calculate_financial_risk
    by_cases he : l = []
    · simp [he]
    · simp [he]
  refine ⟨key events, rfl, ?_⟩
  rw [key, key, List.map_map]
  have hsum : ∀ l : List EventRec,
      (l.map (EventRec.duration_mins ∘
        fun e => (⟨e.status, 2 * e.duration_mins⟩ : EventRec))).sum =
      2 * (l.map EventRec.duration_mins).sum := by
    intro l
    induction l with
    | nil => simp
    | cons a t ih =>
      simp only [List.map_cons, List.sum_cons, Function.comp_apply, ih]
      ring
  rw [hsum]
  ring

/-! ### Column frames (shared by etl_pipeline.py and src/data_quality.py)

A pandas DataFrame is modelled columnar: a list of named columns of
optional rationals (`none` = NaN cell).  Proper frames have all columns of
one length; theorems that need this state it as a hypothesis. -/

/-- A DataFrame: named columns of optional rational cells. -/
structure EtlDf where
  cols : List (String × List (Option ℚ))
deriving DecidableEq

/-- `len(df)`: the row count, read off the first column (0 for a frame
without columns). -/
def nRowsE (df : EtlDf) : ℕ :=
  match df.cols with
  | [] => 0
  | c :: _ => c.2.length

/-- Substring test on character lists, used for the Python idiom
`'sensor' in c` over column names. -/
def hasSubstr : List Char → List Char → Bool
  | pat, [] => pat.isPrefixOf ([] : List Char)
  | pat, ch :: rest => pat.isPrefixOf (ch :: rest) || hasSubstr pat rest

/-- `'sensor' in c`: the column-name test selecting sensor columns. -/
def sensorCol (name : String) : Bool := hasSubstr "sensor".toList name.toList

/-! ### check_sensor_health (src/data_quality.py) -/

/-- A row of the health report frame. -/
structure HealthRec where
  sensor : String
  status : String
  details : String
  current_value : Option ℚ
deriving DecidableEq

/-- `df.tail(lookback_window) if len(df) > lookback_window else df`,
applied to one column of a frame with `n` rows: `tail(w)` keeps the last
`w` rows, i.e. drops the first `n - w`. -/
def recentCol (n w : ℕ) (col : List (Option ℚ)) : List (Option ℚ) :=
  if w < n then col.drop (n - w) else col

/-- `series.iloc[-1]`: the last cell of a column (`none` if that cell is
NaN). -/
def lastVal : List (Option ℚ) → Option ℚ
  | [] => none
  | [x] => x
  | _ :: x :: rest => lastVal (x :: rest)

/-- `series.isna().mean()`: the fraction of NaN cells. -/
def missingFrac (col : List (Option ℚ)) : ℚ :=
  ((col.countP Option.isNone : ℕ) : ℚ) / ((col.length : ℕ) : ℚ)

/-- The per-sensor body of the loop in `check_sensor_health`: CRITICAL on
zero variance (pandas `std() == 0`, i.e. sample variance defined and equal
to 0 — a NaN std compares false), else WARNING on a missing fraction above
0.1, else HEALTHY; the record also reports `iloc[-1]` of the recent
window. -/
def healthRecOf (n w : ℕ) (c : String × List (Option ℚ)) : HealthRec :=
  if sampleVar ((recentCol n w c.2).filterMap id) = some 0 then
    ⟨c.1, "CRITICAL", "Flatline (Zero Variance)", lastVal (recentCol n w c.2)⟩
  else if (1 : ℚ) / 10 < missingFrac (recentCol n w c.2) then
    ⟨c.1, "WARNING", "High Missing Data Rate", lastVal (recentCol n w c.2)⟩
  else
    ⟨c.1, "HEALTHY", "Normal operation", lastVal (recentCol n w c.2)⟩

/-- `check_sensor_health(df, lookback_window)` from src/data_quality.py:
empty-frame guard (`df.empty` is true when either axis has length 0), then
one health record per sensor-named column, computed on the trailing
window. -/
def check_sensor_health (df : EtlDf) (lookback_window : ℕ) : List HealthRec :=
  if df.cols = [] ∨ nRowsE df = 0 then []
  else
    (df.cols.filter (fun c => sensorCol c.1)).map
      (healthRecOf (nRowsE df) lookback_window)

/-- The status written by `healthRecOf` is CRITICAL exactly on a defined,
zero sample variance of the present values in the window; WARNING exactly
when not critical and the missing fraction exceeds 1/10; HEALTHY
otherwise.  The variance check precedes the missing-rate check. -/
theorem healthRecOf_status_iff (n w : ℕ) (c : String × List (Option ℚ)) :
    ((healthRecOf n w c).status = "CRITICAL" ↔
      sampleVar ((recentCol n w c.2).filterMap id) = some 0) ∧
    ((healthRecOf n w c).status = "WARNING" ↔
      (¬ sampleVar ((recentCol n w c.2).filterMap id) = some 0 ∧
        (1 : ℚ) / 10 < missingFrac (recentCol n w c.2))) ∧
    ((healthRecOf n w c).status = "HEALTHY" ↔
      (¬ sampleVar ((recentCol n w c.2).filterMap id) = some 0 ∧
        ¬ (1 : ℚ) / 10 < missingFrac (recentCol n w c.2))) := by
  unfold healthRecOf
  split_ifs with h1 h2
  · exact ⟨iff_of_true rfl h1,
      iff_of_false (by simp) fun hc => hc.1 h1,
      iff_of_false (by simp) fun hc => hc.1 h1⟩
  · exact ⟨iff_of_false (by simp) h1,
      iff_of_true rfl ⟨h1, h2⟩,
      iff_of_false (by simp) fun hc => hc.2 h2⟩
  · exact ⟨iff_of_false (by simp) h1,
      iff_of_false (by simp) fun hc => h2 hc.2,
      iff_of_true rfl ⟨h1, h2⟩⟩

/-- The trailing window is a suffix of the column, of length
`min w n` when the column has the frame's `n` rows. -/
theorem recentCol_window (n w : ℕ) (col : List (Option ℚ)) :
    recentCol n w col <:+ col ∧
      (col.length = n → (recentCol n w col).length = min w n) := by
  unfold recentCol
  split_ifs with h
  · refine ⟨List.drop_suffix _ _, fun hl => ?_⟩
    rw [List.length_drop, hl]
    omega
  · exact ⟨List.suffix_refl _, fun hl => by omega⟩

/-- C7: on a non-empty frame, `check_sensor_health` reports one record per
sensor-named column, computed over the trailing window of at most
`lookback_window` most-recent rows by position (a suffix of the column of
length `min lookback_window n`); a record is CRITICAL exactly when the
window's standard deviation is exactly 0 (sample variance defined and
zero), else WARNING exactly when the missing fraction exceeds 0.10, else
HEALTHY, the zero-variance check taking precedence.  In particular a
constant sensor [10,10,10,10,10] with window 5 is CRITICAL and a monotonic
sensor [1,2,3,4,5] is HEALTHY. -/
theorem c7_check_sensor_health (df : EtlDf) (w : ℕ) (hn : 0 < nRowsE df) :
    (∀ c ∈ df.cols, sensorCol c.1 = true →
      healthRecOf (nRowsE df) w c ∈ check_sensor_health df w ∧
      ((healthRecOf (nRowsE df) w c).status = "CRITICAL" ↔
        sampleVar ((recentCol (nRowsE df) w c.2).filterMap id) = some 0) ∧
      ((healthRecOf (nRowsE df) w c).status = "WARNING" ↔
        (¬ sampleVar ((recentCol (nRowsE df) w c.2).filterMap id) = some 0 ∧
          (1 : ℚ) / 10 < missingFrac (recentCol (nRowsE df) w c.2))) ∧
      ((healthRecOf (nRowsE df) w c).status = "HEALTHY" ↔
        (¬ sampleVar ((recentCol (nRowsE df) w c.2).filterMap id) = some 0 ∧
          ¬ (1 : ℚ) / 10 < missingFrac (recentCol (nRowsE df) w c.2))) ∧
      recentCol (nRowsE df) w c.2 <:+ c.2 ∧
      (c.2.length = nRowsE df →
        (recentCol (nRowsE df) w c.2).length = min w (nRowsE df))) ∧
    check_sensor_health
        ⟨[("sensor_00", List.replicate 5 (some 10)),
          ("sensor_01", [some 1, some 2, some 3, some 4, some 5])]⟩ 5 =
      [⟨"sensor_00", "CRITICAL", "Flatline (Zero Variance)", some 10⟩,
       ⟨"sensor_01", "HEALTHY", "Normal operation", some 5⟩] := by
  constructor
  · intro c hc hs
    refine ⟨?_, (healthRecOf_status_iff _ _ _).1,
      (healthRecOf_status_iff _ _ _).2.1, (healthRecOf_status_iff _ _ _).2.2,
      (recentCol_window _ _ _).1, (recentCol_window _ _ _).2⟩
    unfold check_sensor_health
    have hcols : ¬ (df.cols = [] ∨ nRowsE df = 0) := by
      rintro (h1 | h2)
      · rw [h1] at hc
        exact absurd hc (List.not_mem_nil c)
      · omega
    rw [if_neg hcols]
    exact List.mem_map_of_mem _ (List.mem_filter.mpr ⟨hc, hs⟩)
  · have h0 : sensorCol "sensor_00" = true := by decide
    have h1 : sensorCol "sensor_01" = true := by decide
    norm_num [check_sensor_health, nRowsE, healthRecOf, recentCol, sampleVar,
      listMean, missingFrac, lastVal, List.filter_cons, h0, h1,
      List.replicate, List.filterMap_cons]
    intro h
    simp at h

/-- C7 witness: the theorem applied at the concrete two-sensor frame from
the spec. -/
theorem c7_witness :
    healthRecOf 5 5 ("sensor_00", List.replicate 5 (some 10)) ∈
      check_sensor_health
        ⟨[("sensor_00", List.replicate 5 (some 10)),
          ("sensor_01", [some 1, some 2, some 3, some 4, some 5])]⟩ 5 :=
  ((c7_check_sensor_health
      ⟨[("sensor_00", List.replicate 5 (some 10)),
        ("sensor_01", [some 1, some 2, some 3, some 4, some 5])]⟩ 5
      (by decide)).1
    ("sensor_00", List.replicate 5 (some 10)) (by decide) (by decide)).1

/-! ### ReliabilityPipeline.preprocess (etl_pipeline.py)

`df.ffill().bfill()` fills each column forward then backward;
`df.dropna(axis=1, how='all')` then drops columns that are still entirely
missing.  The scikit-learn stages are modelled by their documented
input/output contract: `StandardScaler.fit_transform` validates its input
(at least one feature, at least one sample, no NaN cell) and never raises
on a zero-variance column — its documented `scale_` attribute substitutes
1 for a zero standard deviation, leaving such a column as all zeros;
`PCA(n_components=2).fit_transform` raises unless
2 ≤ min(n_samples, n_features).  The numeric values of
PCA_1/PCA_2/anomaly_score involve square roots and an SVD which no claim
consults, so the appended columns are abstracted as zero columns. -/

/-- `Series.ffill`, with the last seen value carried in from the left:
each cell becomes its own value if present, else the carried value. -/
def ffillFrom {α : Type} : Option α → List (Option α) → List (Option α)
  | _, [] => []
  | carry, x :: xs => (x <|> carry) :: ffillFrom (x <|> carry) xs

/-- `df.ffill()` on one column. -/
def ffillCol {α : Type} (col : List (Option α)) : List (Option α) :=
  ffillFrom none col

/-- `df.bfill()` on one column: every missing cell takes the next present
value after it, if any. -/
def bfillCol {α : Type} : List (Option α) → List (Option α)
  | [] => []
  | x :: xs => (x <|> (bfillCol xs).head?.join) :: bfillCol xs

/-- The gap-fill lifecycle exactly as the specification words it: a cell
keeps its raw value if present, else takes the nearest present value
before it (forward fill), else the nearest present value after it
(backward fill).  `before` carries the nearest present value to the left.
This definition follows the spec text and is proved equal to the source's
`bfillCol ∘ ffillCol` below. -/
def specFillGo {α : Type} (before : Option α) : List (Option α) → List (Option α)
  | [] => []
  | x :: xs => (x <|> before <|> xs.findSome? id) :: specFillGo (x <|> before) xs

/-- The spec-worded gap fill of a whole column. -/
def specGapFill {α : Type} (col : List (Option α)) : List (Option α) :=
  specFillGo none col

theorem orElse_assoc {α : Type} (a b c : Option α) :
    ((a <|> b) <|> c) = (a <|> (b <|> c)) := by
  cases a <;> rfl

theorem findSome?_id_cons {α : Type} (x : Option α) (xs : List (Option α)) :
    (x :: xs).findSome? id = (x <|> xs.findSome? id) := by
  cases x <;> rfl

theorem specFillGo_none_head_join {α : Type} (xs : List (Option α)) :
    (specFillGo (none : Option α) xs).head?.join = xs.findSome? id := by
  cases xs with
  | nil => rfl
  | cons y ys => cases y <;> rfl

/-- Key refinement: backward fill after forward fill computes exactly the
spec's "own value, else nearest before, else nearest after" rule, for any
carried-in left context. -/
theorem bfill_ffillFrom {α : Type} (col : List (Option α)) :
    ∀ carry, bfillCol (ffillFrom carry col) = specFillGo carry col := by
  induction col with
  | nil => intro carry; rfl
  | cons x xs ih =>
    intro carry
    show ((x <|> carry) <|> (bfillCol (ffillFrom (x <|> carry) xs)).head?.join) ::
        bfillCol (ffillFrom (x <|> carry) xs) =
      (x <|> carry <|> xs.findSome? id) :: specFillGo (x <|> carry) xs
    rw [ih]
    congr 1
    rw [← orElse_assoc]
    cases x <|> carry with
    | some v => rfl
    | none =>
      show (specFillGo none xs).head?.join = xs.findSome? id
      exact specFillGo_none_head_join xs

/-- `bfill(ffill(col))` is the spec's gap fill. -/
theorem bfill_ffill_spec {α : Type} (col : List (Option α)) :
    bfillCol (ffillCol col) = specGapFill col :=
  bfill_ffillFrom col none

theorem specFillGo_some_carry {α : Type} (xs : List (Option α)) :
    ∀ v : α, ∀ x ∈ specFillGo (some v) xs, x.isSome := by
  induction xs with
  | nil =>
    intro v x hx
    exact absurd hx (List.not_mem_nil x)
  | cons y ys ih =>
    intro v x hx
    rcases List.mem_cons.mp hx with h | h
    · subst h
      cases y <;> rfl
    · cases y with
      | some a => exact ih a x h
      | none => exact ih v x h

theorem findSome?_id_isSome {α : Type} (xs : List (Option α)) :
    (xs.findSome? id).isSome = xs.any Option.isSome := by
  induction xs with
  | nil => rfl
  | cons y ys ih =>
    cases y with
    | some v => simp [findSome?_id_cons]
    | none => simpa [findSome?_id_cons] using ih

theorem specFillGo_all_isSome {α : Type} (col : List (Option α)) :
    ∀ carry, col.any Option.isSome = true →
      ∀ x ∈ specFillGo carry col, x.isSome := by
  induction col with
  | nil =>
    intro carry h x hx
    exact absurd hx (List.not_mem_nil x)
  | cons y ys ih =>
    intro carry h x hx
    rcases List.mem_cons.mp hx with hh | ht
    · subst hh
      cases y with
      | some a => rfl
      | none =>
        have hany : ys.any Option.isSome = true := by simpa using h
        have hfs : (ys.findSome? id).isSome = true := by
          rw [findSome?_id_isSome]; exact hany
        obtain ⟨v, hv⟩ := Option.isSome_iff_exists.mp hfs
        show ((none : Option α) <|> carry <|> ys.findSome? id).isSome = true
        rw [hv]
        cases carry <;> rfl
    · cases y with
      | some a => exact specFillGo_some_carry ys a x ht
      | none =>
        have hany : ys.any Option.isSome = true := by simpa using h
        exact ih _ hany x ht

/-- A column with no present value is left unchanged by the spec fill. -/
theorem specGapFill_all_none {α : Type} :
    ∀ col : List (Option α), col.any Option.isSome = false →
      specGapFill col = col := by
  intro col
  induction col with
  | nil => intro h; rfl
  | cons y ys ih =>
    intro h
    have hy : y.isSome = false := by
      cases hcy : y.isSome
      · rfl
      · rw [List.any_cons, hcy] at h
        simp at h
    have hys : ys.any Option.isSome = false := by
      cases hcys : ys.any Option.isSome
      · rfl
      · rw [List.any_cons, hcys] at h
        simp at h
    have hyn : y = none := by
      cases y with
      | none => rfl
      | some a => simp at hy
    have hfs : ys.findSome? id = none := by
      have h1 := findSome?_id_isSome ys
      rw [hys] at h1
      cases hcase : ys.findSome? id with
      | none => rfl
      | some v =>
        rw [hcase] at h1
        simp at h1
    subst hyn
    show ((none : Option α) <|> none <|> ys.findSome? id) ::
        specFillGo (none : Option α) ys = none :: ys
    rw [hfs]
    show (none : Option α) :: specFillGo (none : Option α) ys = none :: ys
    rw [show specFillGo (none : Option α) ys = ys from ih hys]

/-- The spec fill leaves a present value somewhere iff the raw column had
one: filling neither invents nor loses presence. -/
theorem specGapFill_any_isSome {α : Type} (col : List (Option α)) :
    (specGapFill col).any Option.isSome = col.any Option.isSome := by
  cases hc : col.any Option.isSome
  · rw [specGapFill_all_none col hc]
    exact hc
  · cases col with
    | nil => simp at hc
    | cons y ys =>
      have hhead : (y <|> (none : Option α) <|> ys.findSome? id).isSome = true :=
        specFillGo_all_isSome (y :: ys) none hc
          (y <|> (none : Option α) <|> ys.findSome? id)
          (show _ ∈ (y <|> (none : Option α) <|> ys.findSome? id) ::
              specFillGo (y <|> none) ys from List.mem_cons_self _ _)
      show ((y <|> (none : Option α) <|> ys.findSome? id) ::
          specFillGo (y <|> none) ys).any Option.isSome = true
      rw [List.any_cons, hhead]
      rfl

/-- Steps 1–2 of `ReliabilityPipeline.preprocess`:
`df = df.ffill().bfill()` followed by `df = df.dropna(axis=1, how='all')`
(dropping columns whose cells are still all missing). -/
def fillStage (df : EtlDf) : EtlDf :=
  ⟨(df.cols.map (fun c => (c.1, bfillCol (ffillCol c.2)))).filter
      (fun c => c.2.any Option.isSome)⟩

/-- Steps 3–4 of `preprocess`: select the sensor columns and run
`StandardScaler.fit_transform` followed by
`PCA(n_components=2).fit_transform`, modelled by their documented
validation contract (see the section comment).  There is deliberately no
zero-variance condition here: `StandardScaler` replaces a zero scale by 1
instead of raising. -/
def preprocessScale (d : EtlDf) : Except String EtlDf :=
  let sensor_cols := d.cols.filter (fun c => sensorCol c.1)
  if sensor_cols.length = 0 then
    .error "scaler: found array with 0 features"
  else if nRowsE d = 0 then
    .error "scaler: found array with 0 samples"
  else if sensor_cols.any (fun c => c.2.any Option.isNone) = true then
    .error "scaler: input contains NaN"
  else if nRowsE d < 2 ∨ sensor_cols.length < 2 then
    .error "pca: n_components=2 must not exceed min of samples and features"
  else
    .ok ⟨d.cols ++
      [("PCA_1", List.replicate (nRowsE d) (some 0)),
       ("PCA_2", List.replicate (nRowsE d) (some 0)),
       ("anomaly_score", List.replicate (nRowsE d) (some 0))]⟩

/-- `ReliabilityPipeline.preprocess(df)`: gap filling and dead-column
dropping, then scaling and reduction. -/
def preprocess (df : EtlDf) : Except String EtlDf :=
  preprocessScale (fillStage df)

/-- Whether a pipeline stage succeeded (no exception raised). -/
def exceptIsOk (e : Except String EtlDf) : Bool :=
  match e with
  | .ok _ => true
  | .error _ => false

theorem fillStage_mem {df : EtlDf} {c : String × List (Option ℚ)}
    (hc : c ∈ (fillStage df).cols) :
    c.2.any Option.isSome = true ∧
      ∃ orig ∈ df.cols, c = (orig.1, bfillCol (ffillCol orig.2)) := by
  have h1 := List.mem_filter.mp hc
  obtain ⟨orig, ho, he⟩ := List.mem_map.mp h1.1
  exact ⟨h1.2, orig, ho, he.symm⟩

/-- Kept columns of the fill stage are exactly the not-entirely-missing
raw columns, each gap-filled. -/
theorem fillStage_cols_eq (df : EtlDf) :
    (fillStage df).cols =
      (df.cols.filter (fun c => c.2.any Option.isSome)).map
        (fun c => (c.1, bfillCol (ffillCol c.2))) := by
  show (df.cols.map _).filter _ = _
  rw [List.filter_map]
  congr 1
  apply List.filter_congr
  intro a ha
  show (bfillCol (ffillCol a.2)).any Option.isSome = a.2.any Option.isSome
  rw [bfill_ffill_spec a.2]
  exact specGapFill_any_isSome a.2

/-- The fill stage keeps exactly the names of the columns that had at
least one present cell. -/
theorem fillStage_names (df : EtlDf) :
    (fillStage df).cols.map Prod.fst =
      (df.cols.filter (fun c => c.2.any Option.isSome)).map Prod.fst := by
  rw [fillStage_cols_eq, List.map_map]
  rfl

/-- Every kept column of the fill stage is fully present. -/
theorem fillStage_all_isSome (df : EtlDf) :
    ∀ c ∈ (fillStage df).cols, ∀ x ∈ c.2, x.isSome := by
  intro c hc x hx
  obtain ⟨hany, orig, ho, he⟩ := fillStage_mem hc
  have h2 : c.2 = specGapFill orig.2 := by
    rw [he]
    exact bfill_ffill_spec orig.2
  rw [h2] at hany hx
  rw [specGapFill_any_isSome] at hany
  exact specFillGo_all_isSome orig.2 none hany x hx

/-- C6 counterexample: a frame whose column sensor_a has zero variance
across the full dataset (constant, sample variance exactly 0) is
preprocessed without any error — `StandardScaler` substitutes a unit scale
instead of raising, so the claimed zero-variance failure signal does not
exist in the code. -/
theorem c6_counterexample :
    exceptIsOk (preprocess ⟨[("sensor_a", [some 1, some 1, some 1]),
                             ("sensor_b", [some 1, some 2, some 3])]⟩) = true ∧
    sampleVar [1, 1, 1] = some 0 := by
  constructor
  · decide
  · norm_num [sampleVar, listMean]

/-- C6 amended: `preprocess` raises when given zero sensor columns (the
scaler rejects a 0-feature array), but it does not raise on a zero-variance
sensor column: with at least 2 sensor columns and at least 2 rows after the
fill stage it silently produces output whatever the column variances
are — no variance condition appears in the hypotheses. -/
theorem c6_preprocess_failure_modes (df : EtlDf) :
    ((∀ c ∈ df.cols, sensorCol c.1 = false) →
      preprocess df = .error "scaler: found array with 0 features") ∧
    (2 ≤ ((fillStage df).cols.filter (fun c => sensorCol c.1)).length →
      2 ≤ nRowsE (fillStage df) →
      exceptIsOk (preprocess df) = true) := by
  constructor
  · intro hns
    have hflt : (fillStage df).cols.filter (fun c => sensorCol c.1) = [] := by
      rw [List.filter_eq_nil_iff]
      intro a ha
      obtain ⟨-, orig, ho, he⟩ := fillStage_mem ha
      have h1 : a.1 = orig.1 := by rw [he]
      rw [h1, hns orig ho]
      simp
    show preprocessScale (fillStage df) = _
    unfold preprocessScale
    rw [hflt]
    rfl
  · intro h2s h2r
    have c1 : ¬ ((fillStage df).cols.filter (fun c => sensorCol c.1)).length = 0 := by
      omega
    have c2 : ¬ nRowsE (fillStage df) = 0 := by omega
    have c3 : ((fillStage df).cols.filter (fun c => sensorCol c.1)).any
        (fun c => c.2.any Option.isNone) = false := by
      rw [List.any_eq_false]
      intro c hcf
      have hc : c ∈ (fillStage df).cols := List.mem_of_mem_filter hcf
      intro hcontra
      rw [List.any_eq_true] at hcontra
      obtain ⟨x, hx, hxn⟩ := hcontra
      have hs := fillStage_all_isSome df c hc x hx
      cases x
      · simp at hs
      · simp at hxn
    have c4 : ¬ (nRowsE (fillStage df) < 2 ∨
        ((fillStage df).cols.filter (fun c => sensorCol c.1)).length < 2) := by
      omega
    show exceptIsOk (preprocessScale (fillStage df)) = true
    unfold preprocessScale
    simp only [if_neg c1, if_neg c2, c3, if_neg c4]
    rfl

/-- C6 witness: a frame with no sensor-named column errors; a two-sensor
two-row frame succeeds. -/
theorem c6_witness :
    preprocess ⟨[("temp", [some 1, some 2])]⟩ =
        .error "scaler: found array with 0 features" ∧
      exceptIsOk (preprocess ⟨[("sensor_a", [some 1, some 2]),
                               ("sensor_b", [some 3, some 4])]⟩) = true :=
  ⟨(c6_preprocess_failure_modes ⟨[("temp", [some 1, some 2])]⟩).1 (by decide),
   (c6_preprocess_failure_modes ⟨[("sensor_a", [some 1, some 2]),
      ("sensor_b", [some 3, some 4])]⟩).2 (by decide) (by decide)⟩

/-- C9: in the preprocessing pipeline every missing cell is gap-filled by
forward fill first and backward fill second — the filled column equals the
spec's rule "own value, else nearest present value before (taking
precedence), else nearest present value after" — any column that is still
entirely empty is dropped (the kept column names are exactly the names of
columns with at least one present cell, and kept columns are fully
present), and all of this happens before the scaling stage: `preprocess`
is the scaler/reducer applied to the fill stage's output, which is also
the frame the dashboard's health computation consumes. -/
theorem c9_fill_then_drop (df : EtlDf) (col : List (Option ℚ)) :
    bfillCol (ffillCol col) = specGapFill col ∧
    (fillStage df).cols =
      (df.cols.filter (fun c => c.2.any Option.isSome)).map
        (fun c => (c.1, bfillCol (ffillCol c.2))) ∧
    (fillStage df).cols.map Prod.fst =
      (df.cols.filter (fun c => c.2.any Option.isSome)).map Prod.fst ∧
    (∀ c ∈ (fillStage df).cols, ∀ x ∈ c.2, x.isSome) ∧
    preprocess df = preprocessScale (fillStage df) :=
  ⟨bfill_ffill_spec col, fillStage_cols_eq df, fillStage_names df,
   fillStage_all_isSome df, rfl⟩

/-- C9 witness: the theorem applied at a concrete one-column frame with a
gap, discharging the membership hypotheses of its fourth conjunct. -/
theorem c9_witness : Option.isSome (some (1 : ℚ)) = true :=
  (c9_fill_then_drop ⟨[("sensor_1", [some 1, none])]⟩ []).2.2.2.1
    ("sensor_1", [some 1, some 1]) (by decide) (some 1) (by decide)

/-! ### get_anomaly_events (src/anomaly_insights.py)

Rows carry the three columns the extractor reads: `timestamp` (rational
seconds), `machine_status` and `anomaly_score` (the enriched dataset has
the score column; the `else 0` fallback for a missing column is outside
the modelled frames). -/

/-- One row of the frame passed to the event extractor. -/
structure SensorRow where
  timestamp : ℚ
  machine_status : String
  anomaly_score : ℚ
deriving DecidableEq

/-- One row of the events frame built by the extractor. -/
structure AnomalyEvent where
  start_time : ℚ
  end_time : ℚ
  duration_mins : ℚ
  status : String
  max_anomaly_score : ℚ
deriving DecidableEq

/-- `temp_df['machine_status'].shift() != temp_df['machine_status']` for
the rows after the first: row r's flag is true when its status differs
from its predecessor p's. -/
def flagsAux : SensorRow → List SensorRow → List Bool
  | _, [] => []
  | p, r :: rs => (r.machine_status != p.machine_status) :: flagsAux r rs

/-- `groupby(status_change.cumsum())`: the cumulative sum of the change
flags is nondecreasing and increments exactly at the true flags, and
pandas groupby with (sorted) integer keys enumerates the groups in key
order, so the groups are exactly the row segments starting at each true
flag.  `cur` is the group currently being built; a fresh group starts at
every true flag.  (The flags list is always exactly as long as the row
list in use; the final equation only makes the function total.) -/
def splitAtFlags : List SensorRow → List SensorRow → List Bool →
    List (List SensorRow)
  | cur, [], _ => [cur]
  | cur, r :: rs, true :: fs => cur :: splitAtFlags [r] rs fs
  | cur, r :: rs, false :: fs => splitAtFlags (cur ++ [r]) rs fs
  | cur, r :: rs, [] => splitAtFlags (cur ++ [r]) rs []

/-- The state groups of the extractor.  The first row's change flag is
`NaN != status`, which is true, so the first row always opens the first
group. -/
def stateGroups : List SensorRow → List (List SensorRow)
  | [] => []
  | r :: rs => splitAtFlags [r] rs (flagsAux r rs)

/-- `series.min()` on a non-empty list given as head and tail. -/
def qfoldMin (x : ℚ) (xs : List ℚ) : ℚ := xs.foldl min x

/-- `series.max()` on a non-empty list given as head and tail. -/
def qfoldMax (x : ℚ) (xs : List ℚ) : ℚ := xs.foldl max x

/-- One events-frame row built from a group: `timestamp.min()`,
`timestamp.max()`, duration via `total_seconds() / 60` on rational-second
timestamps, the status of `iloc[0]`, and `anomaly_score.max()`. -/
def mkEvent (r : SensorRow) (rest : List SensorRow) : AnomalyEvent :=
  ⟨qfoldMin r.timestamp (rest.map SensorRow.timestamp),
   qfoldMax r.timestamp (rest.map SensorRow.timestamp),
   (qfoldMax r.timestamp (rest.map SensorRow.timestamp) -
     qfoldMin r.timestamp (rest.map SensorRow.timestamp)) / 60,
   r.machine_status,
   qfoldMax r.anomaly_score (rest.map SensorRow.anomaly_score)⟩

/-- The loop body: a group contributes an event iff its status is in the
failure set. -/
def eventOfGroup (g : List SensorRow) : Option AnomalyEvent :=
  match g with
  | [] => none
  | r :: rest =>
    if isFailureStatus r.machine_status then some (mkEvent r rest) else none

/-- The `events` list accumulated by the extraction loop. -/
def extractEvents (rows : List SensorRow) : List AnomalyEvent :=
  (stateGroups rows).filterMap eventOfGroup

/-- `sort_values('start_time', ascending=False)`: a before b when
b.start_time ≤ a.start_time. -/
def startGe (a b : AnomalyEvent) : Prop := b.start_time ≤ a.start_time

instance : DecidableRel startGe := fun a b =>
  inferInstanceAs (Decidable (b.start_time ≤ a.start_time))

instance : IsTotal AnomalyEvent startGe :=
  ⟨fun a b => le_total b.start_time a.start_time⟩

instance : IsTrans AnomalyEvent startGe :=
  ⟨fun _ _ _ h1 h2 => le_trans h2 h1⟩

/-- `get_anomaly_events(df)` from src/anomaly_insights.py: empty frame
short-circuit, then the events of the state groups, sorted newest-first.
When the events list is empty, `pd.DataFrame(events)` has no columns and
`.sort_values('start_time')` raises a KeyError, modelled as `none`.
pandas's default sort is not stable, so the model commits to a sorted
permutation (insertion sort); every claim consumes the output up to
sortedness and multiset equality, or at inputs with distinct keys. -/
def get_anomaly_events (rows : List SensorRow) : Option (List AnomalyEvent) :=
  if rows = [] then some []
  else
    let events := extractEvents rows
    if events = [] then none
    else some (List.insertionSort startGe events)

/-- Invariant of the grouping pass: starting from a non-empty current
group `cur` whose rows all share the status of the previous row `p`, the
groups produced from the remaining rows and their change flags partition
`cur ++ rs`, are non-empty, have constant status, adjacent groups have
different statuses (maximality), and the first group continues `p`'s
status. -/
theorem splitAtFlags_spec (rs : List SensorRow) :
    ∀ (p : SensorRow) (cur : List SensorRow), cur ≠ [] →
      (∀ x ∈ cur, x.machine_status = p.machine_status) →
      ((splitAtFlags cur rs (flagsAux p rs)).flatten = cur ++ rs ∧
        (∀ g ∈ splitAtFlags cur rs (flagsAux p rs), g ≠ []) ∧
        (∀ g ∈ splitAtFlags cur rs (flagsAux p rs), ∀ x ∈ g, ∀ y ∈ g,
          x.machine_status = y.machine_status) ∧
        List.Chain' (fun g h => ∀ x ∈ g, ∀ y ∈ h,
          x.machine_status ≠ y.machine_status)
          (splitAtFlags cur rs (flagsAux p rs)) ∧
        (∃ g0 grest, splitAtFlags cur rs (flagsAux p rs) = g0 :: grest ∧
          ∀ x ∈ g0, x.machine_status = p.machine_status)) := by
  induction rs with
  | nil =>
    intro p cur hne hcur
    refine ⟨by simp [show splitAtFlags cur [] (flagsAux p []) = [cur] from rfl],
      ?_, ?_, ?_, cur, [], rfl, hcur⟩
    · intro g hg
      rw [show splitAtFlags cur [] (flagsAux p []) = [cur] from rfl] at hg
      rw [List.mem_singleton.mp hg]
      exact hne
    · intro g hg
      rw [show splitAtFlags cur [] (flagsAux p []) = [cur] from rfl] at hg
      have h := List.mem_singleton.mp hg
      subst h
      intro x hx y hy
      rw [hcur x hx, hcur y hy]
    · exact List.chain'_singleton cur
  | cons r rs ih =>
    intro p cur hne hcur
    by_cases hs : r.machine_status = p.machine_status
    · have hflag : (r.machine_status != p.machine_status) = false := by
        simp [hs]
      have hstep : splitAtFlags cur (r :: rs) (flagsAux p (r :: rs)) =
          splitAtFlags (cur ++ [r]) rs (flagsAux r rs) := by
        show splitAtFlags cur (r :: rs)
            ((r.machine_status != p.machine_status) :: flagsAux r rs) = _
        rw [hflag]
        rfl
      have hcur2 : ∀ x ∈ cur ++ [r], x.machine_status = r.machine_status := by
        intro x hx
        rcases List.mem_append.mp hx with h | h
        · rw [hcur x h, hs]
        · rw [List.mem_singleton.mp h]
      obtain ⟨hj, hn, hconst, hchain, g0, grest, hg0, hg0s⟩ :=
        ih r (cur ++ [r]) (by simp) hcur2
      rw [hstep]
      refine ⟨?_, hn, hconst, hchain, g0, grest, hg0, ?_⟩
      · rw [hj]
        simp
      · intro x hx
        rw [hg0s x hx, hs]
    · have hflag : (r.machine_status != p.machine_status) = true := by
        simpa using hs
      have hstep : splitAtFlags cur (r :: rs) (flagsAux p (r :: rs)) =
          cur :: splitAtFlags [r] rs (flagsAux r rs) := by
        show splitAtFlags cur (r :: rs)
            ((r.machine_status != p.machine_status) :: flagsAux r rs) = _
        rw [hflag]
        rfl
      obtain ⟨hj, hn, hconst, hchain, g0, grest, hg0, hg0s⟩ :=
        ih r [r] (by simp) (by
          intro x hx
          rw [List.mem_singleton.mp hx])
      rw [hstep]
      refine ⟨?_, ?_, ?_, ?_, cur,
        splitAtFlags [r] rs (flagsAux r rs), rfl, hcur⟩
      · show cur ++ (splitAtFlags [r] rs (flagsAux r rs)).flatten = cur ++ (r :: rs)
        rw [hj]
        simp
      · intro g hg
        rcases List.mem_cons.mp hg with h | h
        · rw [h]
          exact hne
        · exact hn g h
      · intro g hg
        rcases List.mem_cons.mp hg with h | h
        · subst h
          intro x hx y hy
          rw [hcur x hx, hcur y hy]
        · exact hconst g h
      · rw [List.chain'_cons']
        refine ⟨?_, hchain⟩
        intro h hh
        rw [hg0] at hh
        have hhg0 : g0 = h := by simpa using hh
        subst hhg0
        intro x hx y hy
        rw [hcur x hx, hg0s y hy]
        exact fun hc => hs hc.symm

/-- The state-group properties of C1, at any non-empty row list. -/
theorem stateGroups_spec (r : SensorRow) (rs : List SensorRow) :
    (stateGroups (r :: rs)).flatten = r :: rs ∧
    (∀ g ∈ stateGroups (r :: rs), g ≠ []) ∧
    (∀ g ∈ stateGroups (r :: rs), ∀ x ∈ g, ∀ y ∈ g,
      x.machine_status = y.machine_status) ∧
    List.Chain' (fun g h => ∀ x ∈ g, ∀ y ∈ h,
      x.machine_status ≠ y.machine_status) (stateGroups (r :: rs)) := by
  obtain ⟨hj, hn, hconst, hchain, -⟩ :=
    splitAtFlags_spec rs r [r] (by simp) (by
      intro x hx
      rw [List.mem_singleton.mp hx])
  exact ⟨by simpa using hj, hn, hconst, hchain⟩

/-- `series.min()` is the head when the head bounds the tail below. -/
theorem qfoldMin_eq_head (x : ℚ) (xs : List ℚ) (h : ∀ y ∈ xs, x ≤ y) :
    qfoldMin x xs = x := by
  induction xs generalizing x with
  | nil => rfl
  | cons y ys ih =>
    show qfoldMin (min x y) ys = x
    rw [min_eq_left (h y (List.mem_cons_self y ys))]
    exact ih x fun z hz => h z (List.mem_cons_of_mem y hz)

/-- `series.max()` is the last element of a nondecreasing series. -/
theorem qfoldMax_eq_getLast? (x : ℚ) (xs : List ℚ)
    (h : List.Pairwise (fun a b => a ≤ b) (x :: xs)) :
    (x :: xs).getLast? = some (qfoldMax x xs) := by
  induction xs generalizing x with
  | nil => rfl
  | cons y ys ih =>
    have hp := List.pairwise_cons.mp h
    rw [List.getLast?_cons_cons, ih y hp.2]
    show some (qfoldMax y ys) = some (qfoldMax (max x y) ys)
    rw [max_eq_right (hp.1 y (List.mem_cons_self y ys))]

/-- A failure row guarantees at least one extracted event. -/
theorem extractEvents_ne_nil {rows : List SensorRow}
    (hex : ∃ r ∈ rows, isFailureStatus r.machine_status = true) :
    extractEvents rows ≠ [] := by
  obtain ⟨r, hr, hfail⟩ := hex
  cases rows with
  | nil => exact absurd hr (List.not_mem_nil r)
  | cons r0 rs =>
    obtain ⟨hj, hn, hconst, -⟩ := stateGroups_spec r0 rs
    have hrj : r ∈ (stateGroups (r0 :: rs)).flatten := by
      rw [hj]
      exact hr
    obtain ⟨g, hg, hrg⟩ := List.mem_flatten.mp hrj
    obtain ⟨x, t, hxt⟩ : ∃ x t, g = x :: t := by
      cases g with
      | nil => exact absurd rfl (hn [] hg)
      | cons a b => exact ⟨a, b, rfl⟩
    have hx : isFailureStatus x.machine_status = true := by
      have hxm : x ∈ g := by
        rw [hxt]
        exact List.mem_cons_self x t
      rw [hconst g hg x hxm r hrg]
      exact hfail
    intro hnil
    have hmem : mkEvent x t ∈ extractEvents (r0 :: rs) := by
      apply List.mem_filterMap.mpr
      refine ⟨g, hg, ?_⟩
      rw [hxt]
      show (if isFailureStatus x.machine_status = true then
        some (mkEvent x t) else none) = some (mkEvent x t)
      rw [if_pos hx]
    rw [hnil] at hmem
    exact absurd hmem (List.not_mem_nil _)

/-- Rows are sorted within each state group (groups are contiguous
segments of the sorted input). -/
theorem group_pairwise_timestamp {rows : List SensorRow}
    (hsort : List.Pairwise (fun a b => a.timestamp ≤ b.timestamp) rows)
    {g : List SensorRow} (hg : g ∈ stateGroups rows) :
    List.Pairwise (fun a b => a.timestamp ≤ b.timestamp) g := by
  cases rows with
  | nil => exact absurd hg (List.not_mem_nil g)
  | cons r0 rs =>
    obtain ⟨hj, -, -, -⟩ := stateGroups_spec r0 rs
    have hsub : List.Sublist g (r0 :: rs) := by
      have h1 : List.Sublist g (stateGroups (r0 :: rs)).flatten :=
        List.sublist_flatten_of_mem hg
      rw [hj] at h1
      exact h1
    exact List.Pairwise.sublist hsub hsort

/-- C10: on every non-empty frame none of whose rows has a failure status,
`get_anomaly_events` raises — `pd.DataFrame([])` has no columns so
`.sort_values('start_time')` raises a KeyError, modelled as `none` —
while a truly empty input frame returns an empty result without error. -/
theorem c10_no_failure_rows_raises (rows : List SensorRow) (hne : rows ≠ [])
    (hnof : ∀ r ∈ rows, isFailureStatus r.machine_status = false) :
    get_anomaly_events rows = none ∧ get_anomaly_events [] = some [] := by
  refine ⟨?_, rfl⟩
  have hev : extractEvents rows = [] := by
    apply List.filterMap_eq_nil_iff.mpr
    intro g hg
    cases rows with
    | nil => exact absurd rfl hne
    | cons r0 rs =>
      obtain ⟨hj, hn, -, -⟩ := stateGroups_spec r0 rs
      obtain ⟨x, t, hxt⟩ : ∃ x t, g = x :: t := by
        cases g with
        | nil => exact absurd rfl (hn [] hg)
        | cons a b => exact ⟨a, b, rfl⟩
      have hxr : x ∈ (r0 :: rs) := by
        rw [← hj]
        exact List.mem_flatten_of_mem hg (by
          rw [hxt]
          exact List.mem_cons_self x t)
      have hxf := hnof x hxr
      rw [hxt]
      show (if isFailureStatus x.machine_status = true then
        some (mkEvent x t) else none) = none
      rw [if_neg (by simp [hxf])]
  show (if rows = [] then some [] else
    if extractEvents rows = [] then none
    else some (List.insertionSort startGe (extractEvents rows))) = none
  rw [if_neg hne, if_pos hev]

/-- C10 witness: the theorem applied at a one-NORMAL-row frame. -/
theorem c10_witness :
    get_anomaly_events [⟨0, "NORMAL", 0⟩] = none ∧
      get_anomaly_events [] = some [] :=
  c10_no_failure_rows_raises [⟨0, "NORMAL", 0⟩] (by decide) (by decide)

/-- C1 counterexample: the claim quantifies over every sorted non-empty
row sequence, but on a sequence with no failure-status row (one NORMAL
row) the extractor raises — sorting the empty, column-less events frame —
instead of returning the empty ordered event list. -/
theorem c1_counterexample :
    get_anomaly_events [⟨1, "NORMAL", 2⟩] = none := by
  decide

/-- The six-row status sequence NORMAL,NORMAL,BROKEN,BROKEN,NORMAL,BROKEN
from C1, rows one minute apart, with a failure set {BROKEN} by statuses. -/
def exampleRows : List SensorRow :=
  [⟨0, "NORMAL", 0⟩, ⟨60, "NORMAL", 0⟩, ⟨120, "BROKEN", 1⟩,
   ⟨180, "BROKEN", 2⟩, ⟨240, "NORMAL", 0⟩, ⟨300, "BROKEN", 3⟩]

/-- C1 (amended: the sequence must contain at least one failure-status
row, otherwise the extractor raises — see the counterexample): on a
sorted non-empty row sequence with a failure row, the extractor's state
groups partition the rows into maximal contiguous same-status runs (new
group exactly where status differs from the previous row, first row opens
a group, adjacent runs differ in status so two non-contiguous same-status
runs are never merged); one event is emitted per failure run; each event
carries start = first timestamp of the run, end = last timestamp,
duration_mins = (end − start)/60, status = run status, and the maximum
anomaly score of the run; the returned list is a permutation of the
scan's events sorted newest-first by start time; and the
NORMAL,NORMAL,BROKEN,BROKEN,NORMAL,BROKEN instance yields exactly the two
BROKEN events, newest first. -/
theorem c1_event_extractor (rows : List SensorRow) (hne : rows ≠ [])
    (hsort : List.Pairwise (fun a b => a.timestamp ≤ b.timestamp) rows)
    (hex : ∃ r ∈ rows, isFailureStatus r.machine_status = true) :
    (get_anomaly_events rows =
        some (List.insertionSort startGe (extractEvents rows)) ∧
      (List.insertionSort startGe (extractEvents rows)).Perm
        (extractEvents rows) ∧
      List.Sorted startGe (List.insertionSort startGe (extractEvents rows))) ∧
    extractEvents rows = (stateGroups rows).filterMap eventOfGroup ∧
    ((stateGroups rows).flatten = rows ∧
      (∀ g ∈ stateGroups rows, g ≠ []) ∧
      (∀ g ∈ stateGroups rows, ∀ x ∈ g, ∀ y ∈ g,
        x.machine_status = y.machine_status) ∧
      List.Chain' (fun g h => ∀ x ∈ g, ∀ y ∈ h,
        x.machine_status ≠ y.machine_status) (stateGroups rows)) ∧
    (∀ g ∈ stateGroups rows, ∀ r rest, g = r :: rest →
      eventOfGroup g = (if isFailureStatus r.machine_status = true then
        some (mkEvent r rest) else none) ∧
      (mkEvent r rest).start_time = r.timestamp ∧
      ((r :: rest).map SensorRow.timestamp).getLast? =
        some ((mkEvent r rest).end_time) ∧
      (mkEvent r rest).duration_mins =
        ((mkEvent r rest).end_time - (mkEvent r rest).start_time) / 60 ∧
      (mkEvent r rest).status = r.machine_status ∧
      (mkEvent r rest).max_anomaly_score =
        qfoldMax r.anomaly_score (rest.map SensorRow.anomaly_score)) ∧
    get_anomaly_events exampleRows =
      some [⟨300, 300, 0, "BROKEN", 3⟩, ⟨120, 180, 1, "BROKEN", 2⟩] := by
  have hnev := extractEvents_ne_nil hex
  refine ⟨⟨?_, List.perm_insertionSort startGe _,
      List.sorted_insertionSort startGe _⟩, rfl, ?_, ?_, ?_⟩
  · show (if rows = [] then some [] else
      if extractEvents rows = [] then none
      else some (List.insertionSort startGe (extractEvents rows))) = _
    rw [if_neg hne, if_neg hnev]
  · cases rows with
    | nil => exact absurd rfl hne
    | cons r0 rs => exact stateGroups_spec r0 rs
  · intro g hg r rest hgr
    have hpair : List.Pairwise (fun a b => a.timestamp ≤ b.timestamp)
        (r :: rest) := by
      rw [← hgr]
      exact group_pairwise_timestamp hsort hg
    have hp := List.pairwise_cons.mp hpair
    refine ⟨by subst hgr; rfl, ?_, ?_, rfl, rfl, rfl⟩
    · show qfoldMin r.timestamp (rest.map SensorRow.timestamp) = r.timestamp
      apply qfoldMin_eq_head
      intro y hy
      obtain ⟨b, hb, hby⟩ := List.mem_map.mp hy
      rw [← hby]
      exact hp.1 b hb
    · show (r.timestamp :: rest.map SensorRow.timestamp).getLast? =
        some (qfoldMax r.timestamp (rest.map SensorRow.timestamp))
      apply qfoldMax_eq_getLast?
      exact List.Pairwise.map SensorRow.timestamp (fun a b h => h) hpair
  · have hee : extractEvents exampleRows =
        [mkEvent ⟨120, "BROKEN", 1⟩ [⟨180, "BROKEN", 2⟩],
         mkEvent ⟨300, "BROKEN", 3⟩ []] := rfl
    have he1 : mkEvent ⟨120, "BROKEN", 1⟩ [⟨180, "BROKEN", 2⟩] =
        ⟨120, 180, 1, "BROKEN", 2⟩ := by
      norm_num [mkEvent, qfoldMin, qfoldMax, min_def, max_def]
    have he2 : mkEvent ⟨300, "BROKEN", 3⟩ [] = ⟨300, 300, 0, "BROKEN", 3⟩ := by
      norm_num [mkEvent, qfoldMin, qfoldMax]
    show (if exampleRows = [] then some [] else
      if extractEvents exampleRows = [] then none
      else some (List.insertionSort startGe (extractEvents exampleRows))) = _
    rw [if_neg (by decide : ¬ exampleRows = []), hee, he1, he2,
      if_neg (by simp : ¬ ([(⟨120, 180, 1, "BROKEN", 2⟩ : AnomalyEvent),
        ⟨300, 300, 0, "BROKEN", 3⟩] = []))]
    simp only [List.insertionSort, List.orderedInsert]
    rw [if_neg (by norm_num [startGe] :
      ¬ startGe ⟨120, 180, 1, "BROKEN", 2⟩ ⟨300, 300, 0, "BROKEN", 3⟩)]

/-- C1 witness: the theorem applied at the six-row example sequence. -/
theorem c1_witness :
    get_anomaly_events exampleRows =
      some [⟨300, 300, 0, "BROKEN", 3⟩, ⟨120, 180, 1, "BROKEN", 2⟩] :=
  (c1_event_extractor exampleRows (by decide) (by decide)
    (by decide)).2.2.2.2

/-! ### analyze_root_cause (src/anomaly_insights.py)

The frame is row-wise: each row carries `timestamp`, `machine_status` and
its sensor cells aligned with the frame's sensor column names.  A row
whose cell for some sensor is absent (a too-short `vals` list) models a
malformed cell whose access raises inside the per-sensor `try`, which the
`except: continue` turns into dropping that sensor.  The deviation score
|mean_event − mean_baseline| / std_baseline is carried as its square (see
the header note): `devSq = (Δμ)² / variance`; `none` is the NaN score
obtained when the baseline has fewer than two rows — the std is then NaN,
the `sigma_baseline == 0` test compares false, and the division produces
a NaN score that flows into the result.  When every sensor is skipped or
dropped, `contributions` is empty, `pd.DataFrame([])` has no columns, and
`.sort_values('deviation_score')` raises a KeyError, modelled as `none`;
pandas places NaN scores last under `ascending=False`, which is the
`scoreGe` order. -/

/-- One row of the frame passed to the root-cause analyzer. -/
structure RcRow where
  timestamp : ℚ
  machine_status : String
  vals : List ℚ
deriving DecidableEq

/-- The analyzed frame: its sensor column names and its rows. -/
structure RcDf where
  sensorNames : List String
  rows : List RcRow
deriving DecidableEq

/-- The `event_row` argument: the fields the analyzer reads. -/
structure EventCtx where
  start_time : ℚ
  end_time : ℚ
deriving DecidableEq

/-- One entry of `contributions`.  `devSq` carries the square of
`deviation_score` (`none` = NaN). -/
structure Contribution where
  sensor : String
  devSq : Option ℚ
  event_mean : ℚ
  baseline_mean : ℚ
deriving DecidableEq

/-- `frame[sensor]` as a list of cells, failing (exception) if any row
lacks the cell. -/
def colVals (rows : List RcRow) (i : ℕ) : Option (List ℚ) :=
  match rows with
  | [] => some []
  | r :: rs =>
    match r.vals.get? i, colVals rs i with
    | some v, some l => some (v :: l)
    | _, _ => none

/-- The body of the per-sensor loop: baseline mean and std, the
`sigma_baseline == 0` skip (`continue`, hence no contribution), the NaN
branch when the std is undefined, the deviation score, and the
try/except that drops the sensor when a cell access raises. -/
def computeSensor (baseline window : List RcRow) (i : ℕ) (name : String) :
    Option Contribution :=
  match colVals baseline i, colVals window i with
  | some bv, some wv =>
    match sampleVar bv with
    | some v =>
      if v = 0 then none
      else some ⟨name, some ((listMean wv - listMean bv) ^ 2 / v),
        listMean wv, listMean bv⟩
    | none => some ⟨name, none, listMean wv, listMean bv⟩
  | _, _ => none

/-- `sort_values('deviation_score', ascending=False)` compares the score
magnitudes, NaN (`none`) placed last; on the squared representation the
order is unchanged because squaring is monotone on magnitudes. -/
def scoreGeB (a b : Contribution) : Bool :=
  match a.devSq, b.devSq with
  | some x, some y => decide (y ≤ x)
  | some _, none => true
  | none, some _ => false
  | none, none => true

/-- The propositional form of `scoreGeB`. -/
def scoreGe (a b : Contribution) : Prop := scoreGeB a b = true

instance : DecidableRel scoreGe := fun a b =>
  inferInstanceAs (Decidable (scoreGeB a b = true))

instance : IsTotal Contribution scoreGe :=
  ⟨fun a b => by
    unfold scoreGe scoreGeB
    cases ha : a.devSq with
    | none =>
      cases hb : b.devSq with
      | none => exact Or.inl rfl
      | some y => exact Or.inr rfl
    | some x =>
      cases hb : b.devSq with
      | none => exact Or.inl rfl
      | some y =>
        rcases le_total y x with h | h
        · exact Or.inl (decide_eq_true h)
        · exact Or.inr (decide_eq_true h)⟩

instance : IsTrans Contribution scoreGe :=
  ⟨fun a b c hab hbc => by
    unfold scoreGe scoreGeB at hab hbc ⊢
    cases ha : a.devSq with
    | none =>
      cases hb : b.devSq with
      | none =>
        cases hc : c.devSq with
        | none => rfl
        | some z =>
          rw [hb, hc] at hbc
          exact absurd hbc (by simp)
      | some y =>
        rw [ha, hb] at hab
        exact absurd hab (by simp)
    | some x =>
      cases hc : c.devSq with
      | none => rfl
      | some z =>
        cases hb : b.devSq with
        | none =>
          rw [hb, hc] at hbc
          exact absurd hbc (by simp)
        | some y =>
          rw [ha, hb] at hab
          rw [hb, hc] at hbc
          exact decide_eq_true
            (le_trans (of_decide_eq_true hbc) (of_decide_eq_true hab))⟩

/-- `baseline_df = df[df['machine_status'] == 'NORMAL']`. -/
def normalBaseline (df : RcDf) : List RcRow :=
  df.rows.filter (fun r => r.machine_status == "NORMAL")

/-- `event_window_df`: rows with timestamp in [start, end] inclusive. -/
def eventWindow (df : RcDf) (event_row : EventCtx) : List RcRow :=
  df.rows.filter (fun r =>
    decide (event_row.start_time ≤ r.timestamp) &&
      decide (r.timestamp ≤ event_row.end_time))

/-- The `contributions` list accumulated by the per-sensor loop. -/
def rcContributions (df : RcDf) (event_row : EventCtx) : List Contribution :=
  df.sensorNames.enum.filterMap
    (fun p => computeSensor (normalBaseline df) (eventWindow df event_row)
      p.1 p.2)

/-- `analyze_root_cause(df, event_row, top_n)` from
src/anomaly_insights.py: the three degenerate-input guards (empty frame,
empty NORMAL baseline, empty inclusive event window), the per-sensor loop
accumulating `contributions`, and the final sort/head — which raises
(`none`) when `contributions` is empty because the empty frame has no
`deviation_score` column to sort on. -/
def analyze_root_cause (df : RcDf) (event_row : EventCtx) (top_n : ℕ) :
    Option (List Contribution) :=
  if df.rows = [] then some []
  else if normalBaseline df = [] then some []
  else if eventWindow df event_row = [] then some []
  else if rcContributions df event_row = [] then none
  else some ((List.insertionSort scoreGe
    (rcContributions df event_row)).take top_n)

/-- When all three degenerate-input guards pass, the analyzer either
raises on empty contributions or returns the ranked head. -/
theorem analyze_eq_of_guards {df : RcDf} {ev : EventCtx} {n : ℕ}
    (hr : df.rows ≠ []) (hb : normalBaseline df ≠ [])
    (hw : eventWindow df ev ≠ []) :
    analyze_root_cause df ev n =
      if rcContributions df ev = [] then none
      else some ((List.insertionSort scoreGe
        (rcContributions df ev)).take n) := by
  unfold analyze_root_cause
  rw [if_neg hr, if_neg hb, if_neg hw]

/-- A returned ranking is the sorted contributions truncated to top_n. -/
theorem analyze_some_shape {df : RcDf} {ev : EventCtx} {n : ℕ}
    {out : List Contribution}
    (hr : df.rows ≠ []) (hb : normalBaseline df ≠ [])
    (hw : eventWindow df ev ≠ [])
    (hsome : analyze_root_cause df ev n = some out) :
    out = (List.insertionSort scoreGe (rcContributions df ev)).take n := by
  rw [analyze_eq_of_guards hr hb hw] at hsome
  by_cases hc : rcContributions df ev = []
  · rw [if_pos hc] at hsome
    exact absurd hsome (by simp)
  · rw [if_neg hc] at hsome
    exact (Option.some_inj.mp hsome).symm

/-- A successful column extraction has one cell per row. -/
theorem colVals_length {i : ℕ} :
    ∀ {rows : List RcRow} {l : List ℚ}, colVals rows i = some l →
      l.length = rows.length := by
  intro rows
  induction rows with
  | nil =>
    intro l h
    rw [show colVals [] i = some [] from rfl] at h
    rw [← Option.some_inj.mp h]
    rfl
  | cons r rs ih =>
    intro l h
    unfold colVals at h
    cases hv : r.vals.get? i with
    | none =>
      rw [hv] at h
      cases hcv : colVals rs i with
      | none =>
        rw [hcv] at h
        exact absurd h (by simp)
      | some l2 =>
        rw [hcv] at h
        exact absurd h (by simp)
    | some v =>
      cases hcv : colVals rs i with
      | none =>
        rw [hv, hcv] at h
        exact absurd h (by simp)
      | some l2 =>
        rw [hv, hcv] at h
        rw [← Option.some_inj.mp h]
        show l2.length + 1 = rs.length + 1
        rw [ih hcv]

/-- A defined sample variance is nonnegative. -/
theorem sampleVar_nonneg {xs : List ℚ} {v : ℚ} (h : sampleVar xs = some v) :
    0 ≤ v := by
  unfold sampleVar at h
  by_cases hl : xs.length < 2
  · rw [if_pos hl] at h
    exact absurd h (by simp)
  · rw [if_neg hl] at h
    rw [← Option.some_inj.mp h]
    apply div_nonneg
    · apply List.sum_nonneg
      intro x hx
      obtain ⟨y, hy, hxy⟩ := List.mem_map.mp hx
      rw [← hxy]
      positivity
    · have h2 : (2 : ℚ) ≤ (xs.length : ℚ) := by
        exact_mod_cast Nat.not_lt.mp hl
      linarith

/-- With a two-row-or-larger baseline, every surviving contribution comes
from a sensor whose columns extracted, whose baseline variance is defined
and nonzero (the σ = 0 skip), and carries the (squared) z-score with a
nonnegative value. -/
theorem computeSensor_some_of_baseline {baseline window : List RcRow}
    (hb2 : 2 ≤ baseline.length) {i : ℕ} {name : String} {c : Contribution}
    (h : computeSensor baseline window i name = some c) :
    ∃ bv wv v, colVals baseline i = some bv ∧ colVals window i = some wv ∧
      sampleVar bv = some v ∧ v ≠ 0 ∧
      c = ⟨name, some ((listMean wv - listMean bv) ^ 2 / v),
        listMean wv, listMean bv⟩ ∧
      ∃ q, c.devSq = some q ∧ 0 ≤ q := by
  unfold computeSensor at h
  split at h
  next bv wv hbv hwv =>
    have hlen : bv.length = baseline.length := colVals_length hbv
    have hbv2 : ¬ bv.length < 2 := by omega
    split at h
    next v hsv =>
      split at h
      next hv0 => exact absurd h (by simp)
      next hv0 =>
        have hc := (Option.some_inj.mp h).symm
        refine ⟨bv, wv, v, hbv, hwv, hsv, hv0, hc,
          (listMean wv - listMean bv) ^ 2 / v, ?_,
          div_nonneg (sq_nonneg _) (sampleVar_nonneg hsv)⟩
        rw [hc]
    next hsv =>
      unfold sampleVar at hsv
      rw [if_neg hbv2] at hsv
      exact absurd hsv (by simp)
  next =>
    exact absurd h (by simp)

/-- C4 counterexample: the NORMAL baseline is non-empty (one row) and the
event window holds both rows, yet the returned ranking contains a
contribution whose deviation score is NaN (`devSq = none`), because a
one-row baseline has a NaN standard deviation, `sigma_baseline == 0`
compares false, and the division produces NaN — so "every returned
deviation_score is ≥ 0" and the z-score formula fail as stated. -/
theorem c4_counterexample :
    analyze_root_cause ⟨["sensor_1"],
        [⟨0, "NORMAL", [5]⟩, ⟨10, "BROKEN", [7]⟩]⟩ ⟨0, 10⟩ 3 =
      some [⟨"sensor_1", none, listMean [5, 7], listMean [5]⟩] ∧
    listMean [5, 7] = 6 ∧ listMean [5] = 5 := by
  refine ⟨rfl, ?_, ?_⟩ <;> norm_num [listMean]

/-- C4 (amended: the NORMAL baseline must hold at least two rows so that
the standard deviation is defined, and the conclusions describe any
ranking the call returns — it raises instead when every sensor is skipped
or dropped): every returned contribution comes from a sensor whose
baseline variance is defined and nonzero (σ = 0 sensors never appear) and
carries deviation score |μ_event − μ_baseline| / σ_baseline — recorded as
its square `devSq = (Δμ)²/v` — which is ≥ 0, together with the event and
baseline means; the ranking is sorted descending by score and is the
3-element head (default top_n) of the sorted list of all surviving
contributions. -/
theorem c4_root_cause_ranking (df : RcDf) (ev : EventCtx)
    (out : List Contribution)
    (hb2 : 2 ≤ (normalBaseline df).length)
    (hw : eventWindow df ev ≠ [])
    (hsome : analyze_root_cause df ev 3 = some out) :
    (∀ c ∈ out, ∃ i name, (i, name) ∈ df.sensorNames.enum ∧
      ∃ bv wv v, colVals (normalBaseline df) i = some bv ∧
        colVals (eventWindow df ev) i = some wv ∧
        sampleVar bv = some v ∧ v ≠ 0 ∧
        c = ⟨name, some ((listMean wv - listMean bv) ^ 2 / v),
          listMean wv, listMean bv⟩ ∧
        ∃ q, c.devSq = some q ∧ 0 ≤ q) ∧
    List.Sorted scoreGe out ∧
    out.length ≤ 3 ∧
    (∃ ranking, ranking.Perm (rcContributions df ev) ∧
      List.Sorted scoreGe ranking ∧ out = ranking.take 3) := by
  have hbne : normalBaseline df ≠ [] := by
    intro hc
    rw [hc] at hb2
    simp at hb2
  have hrne : df.rows ≠ [] := by
    intro hc
    apply hbne
    unfold normalBaseline
    rw [hc]
    rfl
  have hshape := analyze_some_shape hrne hbne hw hsome
  refine ⟨?_, ?_, ?_, ?_⟩
  · intro c hc
    have hc2 : c ∈ List.insertionSort scoreGe (rcContributions df ev) := by
      rw [hshape] at hc
      exact List.mem_of_mem_take hc
    have hc3 : c ∈ rcContributions df ev := by
      simpa using hc2
    obtain ⟨p, hp, hcp⟩ := List.mem_filterMap.mp hc3
    obtain ⟨bv, wv, v, h1, h2, h3, h4, h5, h6⟩ :=
      computeSensor_some_of_baseline hb2 hcp
    refine ⟨p.1, p.2, ?_, bv, wv, v, h1, h2, h3, h4, h5, h6⟩
    rw [Prod.mk.eta]
    exact hp
  · rw [hshape]
    exact List.Pairwise.sublist (List.take_sublist _ _)
      (List.sorted_insertionSort scoreGe _)
  · rw [hshape, List.length_take]
    exact min_le_left _ _
  · exact ⟨List.insertionSort scoreGe (rcContributions df ev),
      List.perm_insertionSort scoreGe _,
      List.sorted_insertionSort scoreGe _, hshape⟩

/-- The three-row frame used to witness C4: two NORMAL baseline rows with
sensor values 5 and 7, one BROKEN row with value 9. -/
def rcExampleDf : RcDf :=
  ⟨["sensor_1"],
   [⟨0, "NORMAL", [5]⟩, ⟨1, "NORMAL", [7]⟩, ⟨10, "BROKEN", [9]⟩]⟩

/-- C4 witness: the theorem applied at the concrete three-row frame,
whose analysis succeeds with a single contribution of score² = 1/2. -/
theorem c4_witness :
    ([(⟨"sensor_1", some ((1 : ℚ)/2), 7, 6⟩ : Contribution)] :
      List Contribution).length ≤ 3 := by
  have hb : normalBaseline rcExampleDf =
      [⟨0, "NORMAL", [5]⟩, ⟨1, "NORMAL", [7]⟩] := by decide
  have hwv : eventWindow rcExampleDf ⟨0, 10⟩ = rcExampleDf.rows := by decide
  have hbv : colVals [(⟨0, "NORMAL", [5]⟩ : RcRow), ⟨1, "NORMAL", [7]⟩] 0 =
      some [5, 7] := by decide
  have hev : colVals rcExampleDf.rows 0 = some [5, 7, 9] := by decide
  have hv : sampleVar [5, 7] = some 2 := by
    norm_num [sampleVar, listMean]
  have hcs : computeSensor (normalBaseline rcExampleDf)
      (eventWindow rcExampleDf ⟨0, 10⟩) 0 "sensor_1" =
      some ⟨"sensor_1", some ((1 : ℚ)/2), 7, 6⟩ := by
    rw [hb, hwv]
    simp only [computeSensor, hbv, hev, hv]
    norm_num [listMean]
  have hcon : rcContributions rcExampleDf ⟨0, 10⟩ =
      [⟨"sensor_1", some ((1 : ℚ)/2), 7, 6⟩] := by
    unfold rcContributions
    rw [show rcExampleDf.sensorNames.enum = [(0, "sensor_1")] from rfl]
    simp [List.filterMap_cons, hcs]
  have hsome : analyze_root_cause rcExampleDf ⟨0, 10⟩ 3 =
      some [⟨"sensor_1", some ((1 : ℚ)/2), 7, 6⟩] := by
    rw [analyze_eq_of_guards (by decide) (by decide) (by decide), hcon]
    simp [List.insertionSort, List.orderedInsert]
  exact (c4_root_cause_ranking rcExampleDf ⟨0, 10⟩ _ (by decide)
    (by decide) hsome).2.2.1

/-- C5 counterexample: a frame that is non-empty, has a NORMAL row and a
non-empty event window, but no sensor column at all, makes every
"per-sensor computation" vacuously absent: `contributions` is empty and
sorting the empty column-less frame raises a KeyError instead of
returning an empty ranked list — so the call does abort on this
degenerate input. -/
theorem c5_counterexample :
    analyze_root_cause ⟨[], [⟨0, "NORMAL", []⟩]⟩ ⟨0, 0⟩ 3 = none := by
  decide

/-- C5 (amended: the no-abort guarantee holds for the three degenerate
inputs, and a failing sensor is dropped with the rest still ranked,
provided at least one sensor survives — when every sensor is skipped or
dropped the call raises): empty frame, frame without NORMAL rows, and
empty event window each return an empty result; any returned ranking
contains only contributions of sensors whose computation succeeded, with
length `min top_n (number of surviving sensors)`; and when the guards
pass but no contribution survives, the call raises. -/
theorem c5_root_cause_soft_failures (df : RcDf) (ev : EventCtx) (n : ℕ) :
    (df.rows = [] → analyze_root_cause df ev n = some []) ∧
    ((∀ r ∈ df.rows, r.machine_status ≠ "NORMAL") →
      analyze_root_cause df ev n = some []) ∧
    (eventWindow df ev = [] → analyze_root_cause df ev n = some []) ∧
    (∀ out, df.rows ≠ [] → normalBaseline df ≠ [] → eventWindow df ev ≠ [] →
      analyze_root_cause df ev n = some out →
      ((∀ c ∈ out, ∃ p ∈ df.sensorNames.enum,
          computeSensor (normalBaseline df) (eventWindow df ev) p.1 p.2 =
            some c) ∧
        out.length = min n (rcContributions df ev).length)) ∧
    (df.rows ≠ [] → normalBaseline df ≠ [] → eventWindow df ev ≠ [] →
      rcContributions df ev = [] → analyze_root_cause df ev n = none) := by
  refine ⟨?_, ?_, ?_, ?_, ?_⟩
  · intro h
    unfold analyze_root_cause
    rw [if_pos h]
  · intro h
    have hb : normalBaseline df = [] := by
      unfold normalBaseline
      rw [List.filter_eq_nil_iff]
      intro r hr
      simpa using h r hr
    unfold analyze_root_cause
    by_cases hr : df.rows = []
    · rw [if_pos hr]
    · rw [if_neg hr, if_pos hb]
  · intro h
    unfold analyze_root_cause
    by_cases hr : df.rows = []
    · rw [if_pos hr]
    · by_cases hb : normalBaseline df = []
      · rw [if_neg hr, if_pos hb]
      · rw [if_neg hr, if_neg hb, if_pos h]
  · intro out h1 h2 h3 h4
    have hshape := analyze_some_shape h1 h2 h3 h4
    constructor
    · intro c hc
      have hc2 : c ∈ List.insertionSort scoreGe (rcContributions df ev) := by
        rw [hshape] at hc
        exact List.mem_of_mem_take hc
      have hc3 : c ∈ rcContributions df ev := by
        simpa using hc2
      obtain ⟨p, hp, hcp⟩ := List.mem_filterMap.mp hc3
      exact ⟨p, hp, hcp⟩
    · rw [hshape, List.length_take,
        (List.perm_insertionSort scoreGe (rcContributions df ev)).length_eq]
  · intro h1 h2 h3 h4
    rw [analyze_eq_of_guards h1 h2 h3, if_pos h4]

/-- C5 witness: the theorem applied at concrete frames — an empty frame,
a frame with no NORMAL row, and a frame whose guards pass but whose
(zero) sensors leave no contribution, which raises. -/
theorem c5_witness :
    analyze_root_cause ⟨["sensor_1"], []⟩ ⟨0, 0⟩ 3 = some [] ∧
    analyze_root_cause ⟨["sensor_1"], [⟨0, "BROKEN", [1]⟩]⟩ ⟨0, 0⟩ 3 =
      some [] ∧
    analyze_root_cause ⟨[], [⟨0, "NORMAL", []⟩]⟩ ⟨0, 1⟩ 3 = none :=
  ⟨(c5_root_cause_soft_failures ⟨["sensor_1"], []⟩ ⟨0, 0⟩ 3).1 rfl,
   (c5_root_cause_soft_failures ⟨["sensor_1"], [⟨0, "BROKEN", [1]⟩]⟩
      ⟨0, 0⟩ 3).2.1 (by decide),
   (c5_root_cause_soft_failures ⟨[], [⟨0, "NORMAL", []⟩]⟩ ⟨0, 1⟩ 3).2.2.2.2
     (by decide) (by decide) (by decide) (by decide)⟩

end SensorFlow
